import Mathlib

/-!
Verification of the PageRank repository (graph.py, pagerank.py).

The Python code is shallowly embedded: Python dicts become insertion-ordered
association lists (Python 3.7+ dicts preserve insertion order, which the code
relies on), Python floats become exact rationals (all claims settled here have
margins many orders of magnitude wider than double-precision rounding error),
and Python exceptions become the error side of `Except String`.  Stateful
methods (the lazily cached degree/neighbor queries mutate per-node flag fields)
are embedded as functions returning the updated graph next to their result.
-/

set_option maxRecDepth 10000

abbrev Attrs := List (String × String)

abbrev RankMap := List (Nat × ℚ)

/-- Embedding of `graph.Node`: the identifier, the attribute bag, and the
lazily cached degree/neighbor state (`_in_degree`, `_out_degree`,
`_in_neighbors`, `_out_neighbors`, `_flag_in`, `_flag_in_neig`, `_flag_out`,
`_flag_out_neig` from `Node.__init__`). -/
structure PyNode where
  idn : Nat
  attrs : Attrs
  inDeg : Nat
  outDeg : Nat
  inNeig : Option (List Nat)
  outNeig : Option (List Nat)
  flagIn : Bool
  flagInNeig : Bool
  flagOut : Bool
  flagOutNeig : Bool
  deriving DecidableEq, Repr

/-- Embedding of `graph.Edge`: the ordered endpoints and the attribute bag.
(The Python object stores Node references; only their immutable identifiers
are ever read through an Edge, so identifiers are stored here.) -/
structure PyEdge where
  src : Nat
  dst : Nat
  attrs : Attrs
  deriving DecidableEq, Repr

/-- Embedding of `graph.BaseGraph`: `_nodes` and `_edges` are Python dicts,
modelled as insertion-ordered association lists (keys are unique in every
state the API can build, since `add_node`/`add_edge` reject duplicates). -/
structure PyGraph where
  nodes : List (Nat × PyNode)
  edges : List ((Nat × Nat) × PyEdge)
  deriving DecidableEq, Repr

/-- Python dict read `d[k]` / `k in d`: first (and only) binding of `k`. -/
def dlookup {κ β : Type} [DecidableEq κ] : List (κ × β) → κ → Option β
  | [], _ => none
  | p :: rest, k => if p.1 = k then some p.2 else dlookup rest k

/-- Python dict write `d[k] = v` on a key that is already present: the value
is replaced in place, the position of the binding is unchanged. -/
def dictSet {κ β : Type} [DecidableEq κ] (l : List (κ × β)) (k : κ) (v : β) :
    List (κ × β) :=
  l.map (fun p => if p.1 = k then (k, v) else p)

/-- In-place mutation of the node object stored under `id` (Python mutates the
`Node` through the reference held in `_nodes`). -/
def updNode (g : PyGraph) (id : Nat) (f : PyNode → PyNode) : PyGraph :=
  { g with nodes := g.nodes.map (fun p => if p.1 = id then (p.1, f p.2) else p) }

def nodeKeys (g : PyGraph) : List Nat := g.nodes.map Prod.fst

def edgeKeys (g : PyGraph) : List (Nat × Nat) := g.edges.map Prod.fst

/-- Attribute bag of the edge stored under the ordered pair `(a, b)`, when
that edge exists. -/
def edgeAttrs (g : PyGraph) (a b : Nat) : Option Attrs :=
  (dlookup g.edges (a, b)).map PyEdge.attrs

def pyEmpty : PyGraph := { nodes := [], edges := [] }

deriving instance DecidableEq for Except

/-- `Node.__init__`: fresh attribute bag, cached degrees 0, cached neighbor
lists `None`, all four validity flags `False`. -/
def freshNode (id : Nat) (attrs : Attrs) : PyNode :=
  { idn := id, attrs := attrs, inDeg := 0, outDeg := 0, inNeig := none,
    outNeig := none, flagIn := false, flagInNeig := false, flagOut := false,
    flagOutNeig := false }

/-- `BaseGraph.add_node`: GraphError if the identifier is already a key,
otherwise insert a fresh Node at the end of the dict. -/
def add_node (g : PyGraph) (id : Nat) (attrs : Attrs) :
    PyGraph × Except String Unit :=
  if (dlookup g.nodes id).isSome then
    (g, Except.error "GraphError: node already exists in the graph")
  else
    ({ g with nodes := g.nodes ++ [(id, freshNode id attrs)] }, Except.ok ())

/-- `BaseGraph.add_edge`: duplicate-ordered-pair check first, then the
endpoint-existence check, then the edge is stored and exactly the source
node's out-caches and the destination node's in-caches are invalidated. -/
def baseAddEdge (g : PyGraph) (a b : Nat) (attrs : Attrs) :
    PyGraph × Except String Unit :=
  if (dlookup g.edges (a, b)).isSome then
    (g, Except.error "GraphError: edge already exists in the graph")
  else if ¬ ((dlookup g.nodes a).isSome ∧ (dlookup g.nodes b).isSome) then
    (g, Except.error "GraphError: nodes for the edge not found in the graph")
  else
    let g1 : PyGraph :=
      { g with edges := g.edges ++ [((a, b), PyEdge.mk a b attrs)] }
    let g2 := updNode g1 a (fun m => { m with flagOut := false, flagOutNeig := false })
    let g3 := updNode g2 b (fun m => { m with flagIn := false, flagInNeig := false })
    (g3, Except.ok ())

/-- `UndirectedGraph.add_edge`: reject self-loops, then two base `add_edge`
calls, `(a, b)` first and `(b, a)` second, both with the same attributes.
If the second base call raised, the Python object would keep the first edge;
the embedding returns the partially updated graph next to the error. -/
def uAddEdge (g : PyGraph) (a b : Nat) (attrs : Attrs) :
    PyGraph × Except String Unit :=
  if a = b then
    (g, Except.error "GraphError: cannot add a self-loop in an undirected graph")
  else
    match baseAddEdge g a b attrs with
    | (g1, Except.error e) => (g1, Except.error e)
    | (g1, Except.ok _) => baseAddEdge g1 b a attrs

/-- `UndirectedGraph.degree`: scan all edge keys, count the ones the id is a
member of (as source or destination), and halve with `int(count/2)`. -/
def degree (g : PyGraph) (id : Nat) : Except String Nat :=
  if (dlookup g.nodes id).isSome then
    Except.ok
      (((edgeKeys g).filter
        (fun p => decide (p.1 = id) || decide (p.2 = id))).length / 2)
  else Except.error "GraphError: node not found in the graph"

/-- `BaseGraph.nodes_id`: the node identifiers, sorted ascending. -/
def nodes_id (g : PyGraph) : List Nat :=
  List.insertionSort (fun x y => x ≤ y) (nodeKeys g)

/-- `DirectedGraph.in_degree`.  On a cache miss the flag is set, the count is
computed by one scan over the edge keys, stored, and the local variable
`in_degree_count` is returned.  On a cache hit the Python function returns
that same local variable, which was never assigned on this path, so the call
raises `UnboundLocalError` instead of returning the cached `_in_degree`. -/
def in_degree (g : PyGraph) (id : Nat) : PyGraph × Except String Nat :=
  match dlookup g.nodes id with
  | none => (g, Except.error "GraphError: node not found in the graph")
  | some n =>
    if n.flagIn then
      (g, Except.error
        "UnboundLocalError: local variable referenced before assignment")
    else
      let cnt := ((edgeKeys g).filter (fun p => decide (p.2 = id))).length
      (updNode g id (fun m => { m with flagIn := true, inDeg := cnt }),
        Except.ok cnt)

/-- `DirectedGraph.out_degree`: like `in_degree` on a cache miss, but the
cache-hit path correctly returns the stored `_out_degree`. -/
def out_degree (g : PyGraph) (id : Nat) : PyGraph × Except String Nat :=
  match dlookup g.nodes id with
  | none => (g, Except.error "GraphError: node not found in the graph")
  | some n =>
    if n.flagOut then (g, Except.ok n.outDeg)
    else
      let cnt := ((edgeKeys g).filter (fun p => decide (p.1 = id))).length
      (updNode g id (fun m => { m with flagOut := true, outDeg := cnt }),
        Except.ok cnt)

/-- One `self._nodes[dest]._in_neighbors.append(src)` step of the rebuild
loop in `DirectedGraph.in_neighbors` (the lists were all reset to `[]` just
before this loop runs, so `getD` never actually supplies a default). -/
def pushIn (ns : List (Nat × PyNode)) (key : Nat × Nat) : List (Nat × PyNode) :=
  ns.map (fun q =>
    if q.1 = key.2 then
      (q.1, { q.2 with inNeig := some ((q.2.inNeig.getD []) ++ [key.1]) })
    else q)

def pushOut (ns : List (Nat × PyNode)) (key : Nat × Nat) : List (Nat × PyNode) :=
  ns.map (fun q =>
    if q.1 = key.1 then
      (q.1, { q.2 with outNeig := some ((q.2.outNeig.getD []) ++ [key.2]) })
    else q)

/-- `DirectedGraph.in_neighbors`.  On a cache miss the queried node's flag is
set, then the loop variable `node` is shadowed: every node's `_in_neighbors`
is reset to `[]`, the edge keys are replayed in insertion order, and the
`return node._in_neighbors` at the end reads `node` as left by the rebuild
loop — the LAST node of `_nodes` in insertion order, not the queried node.
On a cache hit the queried node's stored list is returned (a stored `None`
would make the caller's iteration raise; that state is unreachable through
the API because the flag is only set next to a full rebuild). -/
def in_neighbors (g : PyGraph) (id : Nat) :
    PyGraph × Except String (List Nat) :=
  match dlookup g.nodes id with
  | none => (g, Except.error "GraphError: node not found in the graph")
  | some n =>
    if n.flagInNeig then
      match n.inNeig with
      | some l => (g, Except.ok l)
      | none => (g, Except.error "TypeError: NoneType is not iterable")
    else
      let ns0 := (updNode g id (fun m => { m with flagInNeig := true })).nodes
      let ns1 := ns0.map (fun p => (p.1, { p.2 with inNeig := some [] }))
      let ns2 := (edgeKeys g).foldl pushIn ns1
      let g2 : PyGraph := { g with nodes := ns2 }
      match ns2.getLast? with
      | none => (g2, Except.error "unreachable: node dict is empty")
      | some p =>
        match p.2.inNeig with
        | some l => (g2, Except.ok l)
        | none => (g2, Except.error "TypeError: NoneType is not iterable")

/-- `DirectedGraph.out_neighbors`: mirror image of `in_neighbors`, with the
same shadowed loop variable, so a cache miss returns the last-inserted
node's `_out_neighbors`. -/
def out_neighbors (g : PyGraph) (id : Nat) :
    PyGraph × Except String (List Nat) :=
  match dlookup g.nodes id with
  | none => (g, Except.error "GraphError: node not found in the graph")
  | some n =>
    if n.flagOutNeig then
      match n.outNeig with
      | some l => (g, Except.ok l)
      | none => (g, Except.error "TypeError: NoneType is not iterable")
    else
      let ns0 := (updNode g id (fun m => { m with flagOutNeig := true })).nodes
      let ns1 := ns0.map (fun p => (p.1, { p.2 with outNeig := some [] }))
      let ns2 := (edgeKeys g).foldl pushOut ns1
      let g2 : PyGraph := { g with nodes := ns2 }
      match ns2.getLast? with
      | none => (g2, Except.error "unreachable: node dict is empty")
      | some p =>
        match p.2.outNeig with
        | some l => (g2, Except.ok l)
        | none => (g2, Except.error "TypeError: NoneType is not iterable")

/-- `pagerank.find_sinks` body: iterate the sorted node ids, query
`out_degree` (threading the cache mutations), collect ids of out-degree 0 in
that order. -/
def findSinksAux (g : PyGraph) : List Nat → PyGraph × Except String (List Nat)
  | [] => (g, Except.ok [])
  | id :: rest =>
    match out_degree g id with
    | (g1, Except.error e) => (g1, Except.error e)
    | (g1, Except.ok d) =>
      match findSinksAux g1 rest with
      | (g2, Except.error e) => (g2, Except.error e)
      | (g2, Except.ok s) => (g2, Except.ok (if d = 0 then id :: s else s))

def find_sinks (g : PyGraph) : PyGraph × Except String (List Nat) :=
  findSinksAux g (nodes_id g)

/-- `pagerank.handle_sinks`: for each sink in order, divide its entry of the
rank dict by `tot_nodes` in place and add the divided value to the running
sum.  A missing key would be a `KeyError`, division by zero a
`ZeroDivisionError` (neither is reachable from `pagerank`). -/
def handle_sinks (pv : RankMap) (sinks : List Nat) (N : Nat) :
    Except String (RankMap × ℚ) :=
  match sinks with
  | [] => Except.ok (pv, 0)
  | s :: rest =>
    if N = 0 then Except.error "ZeroDivisionError: division by zero"
    else
      match dlookup pv s with
      | none => Except.error "KeyError"
      | some v =>
        match handle_sinks (dictSet pv s (v / (N : ℚ))) rest N with
        | Except.error e => Except.error e
        | Except.ok (pv2, acc) => Except.ok (pv2, v / (N : ℚ) + acc)

/-- The inner `for neighbor_id in digraph.in_neighbors(node_id)` loop of one
pagerank iteration: `new[id] += d * pv[u] / out_degree(u)` for each listed
neighbor `u`, threading the graph through the stateful `out_degree` calls.
`pv` here is the rank dict as already mutated by `handle_sinks`. -/
def addContribs (g : PyGraph) (pv : RankMap) (d : ℚ) (id : Nat) :
    List Nat → RankMap → PyGraph × Except String RankMap
  | [], new => (g, Except.ok new)
  | u :: rest, new =>
    match dlookup pv u with
    | none => (g, Except.error "KeyError")
    | some pu =>
      match out_degree g u with
      | (g1, Except.error e) => (g1, Except.error e)
      | (g1, Except.ok du) =>
        if du = 0 then (g1, Except.error "ZeroDivisionError: division by zero")
        else
          match dlookup new id with
          | none => (g1, Except.error "KeyError")
          | some cur =>
            addContribs g1 pv d id rest
              (dictSet new id (cur + d * pu / (du : ℚ)))

/-- The outer `for node_id in digraph.nodes_id()` loop of one pagerank
iteration: query `in_neighbors` (stateful) and accumulate contributions. -/
def iterNodes (g : PyGraph) (pv : RankMap) (d : ℚ) :
    List Nat → RankMap → PyGraph × Except String RankMap
  | [], new => (g, Except.ok new)
  | id :: rest, new =>
    match in_neighbors g id with
    | (g1, Except.error e) => (g1, Except.error e)
    | (g1, Except.ok neigs) =>
      match addContribs g1 pv d id neigs new with
      | (g2, Except.error e) => (g2, Except.error e)
      | (g2, Except.ok new2) => iterNodes g2 pv d rest new2

/-- `error = sum(abs(new[id] - pv[id]) for id in pv)`, iterating the keys of
the (already sink-mutated) current rank dict. -/
def l1err (pv new : RankMap) : Except String ℚ :=
  match pv with
  | [] => Except.ok 0
  | (id, v) :: rest =>
    match dlookup new id with
    | none => Except.error "KeyError"
    | some w =>
      match l1err rest new with
      | Except.error e => Except.error e
      | Except.ok s => Except.ok (|w - v| + s)

/-- One iteration of the pagerank loop body: sink handling (which mutates the
current rank dict), seeding of the next dict with
`random_factor + sink_rank_sum`, neighbor propagation, and the L1 error.
Returns the mutated current dict, the next dict and the error. -/
def prIter (g : PyGraph) (pv : RankMap) (sinks : List Nat) (N : Nat)
    (rf d : ℚ) : PyGraph × Except String (RankMap × RankMap × ℚ) :=
  match handle_sinks pv sinks N with
  | Except.error e => (g, Except.error e)
  | Except.ok (pv1, s) =>
    let srs := s * d
    let new0 : RankMap := (nodes_id g).map (fun id => (id, rf + srs))
    match iterNodes g pv1 d (nodes_id g) new0 with
    | (g1, Except.error e) => (g1, Except.error e)
    | (g1, Except.ok new) =>
      match l1err pv1 new with
      | Except.error e => (g1, Except.error e)
      | Except.ok err => (g1, Except.ok (pv1, new, err))

/-- The `for _ in range(num_iterations)` loop of `pagerank.pagerank`: on
`error < tol` stop and return the current (sink-mutated) rank dict, otherwise
adopt the new dict; when the iteration bound runs out, return whatever dict
is current. -/
def prLoop (sinks : List Nat) (N : Nat) (rf tol d : ℚ) :
    PyGraph → RankMap → Nat → PyGraph × Except String RankMap
  | g, pv, 0 => (g, Except.ok pv)
  | g, pv, fuel + 1 =>
    match prIter g pv sinks N rf d with
    | (g1, Except.error e) => (g1, Except.error e)
    | (g1, Except.ok (pv1, new, err)) =>
      if err < tol then (g1, Except.ok pv1)
      else prLoop sinks N rf tol d g1 new fuel

/-- `pagerank.pagerank`: `1 / num_nodes` raises `ZeroDivisionError` on an
empty graph (there is no guard in the source); otherwise initialize every
node's rank to `1/N`, compute the sink list once, and run the loop. -/
def pagerank (g : PyGraph) (numIter : Nat) (tol d : ℚ) :
    Except String RankMap :=
  if g.nodes.length = 0 then
    Except.error "ZeroDivisionError: division by zero"
  else
    let N := g.nodes.length
    let init : ℚ := 1 / (N : ℚ)
    let pv : RankMap := (nodes_id g).map (fun id => (id, init))
    let rf : ℚ := (1 - d) / (N : ℚ)
    match find_sinks g with
    | (_, Except.error e) => Except.error e
    | (g1, Except.ok sinks) => (prLoop sinks N rf tol d g1 pv numIter).2

/-- Sum of the rank values of a rank dict. -/
def rankSum (m : RankMap) : ℚ := (m.map Prod.snd).sum

/-- The 3-node digraph of the docstring of `pagerank` and of the end-to-end
scenario in the spec: nodes 0, 1, 2 added in that order, then edges
(0,1), (0,2), (1,0).  Node 2 is a sink.  (The node/edge attribute bags of the
doctest are irrelevant to every rank computation and are left empty.) -/
def gDoc : PyGraph :=
  (baseAddEdge (baseAddEdge (baseAddEdge
    (add_node (add_node (add_node pyEmpty 0 []).1 1 []).1 2 []).1
    0 1 []).1 0 2 []).1 1 0 []).1

/-- Two isolated nodes 0 and 1 (both sinks of the directed graph). -/
def g2n : PyGraph := (add_node (add_node pyEmpty 0 []).1 1 []).1

/-- Nodes 1 and 2 (inserted in that order) with the single edge (1, 2). -/
def gC2 : PyGraph :=
  (baseAddEdge (add_node (add_node pyEmpty 1 []).1 2 []).1 1 2 []).1

/-- A single node 0 and no edges. -/
def gC3 : PyGraph := (add_node pyEmpty 0 []).1

/-- Nodes 0, 1, 2 (inserted in that order) and no edges. -/
def gC4 : PyGraph :=
  (add_node (add_node (add_node pyEmpty 0 []).1 1 []).1 2 []).1

unseal Rat.add Rat.sub Rat.mul Rat.inv in
/-- C2: the claim says every call to `in_neighbors(id)` returns the list of
sources of the edges into `id`, regardless of earlier neighbor queries.  On
the code this fails at the very first call: in the graph with nodes 1, 2 and
the single edge (1, 2), the cache-miss call `in_neighbors(1)` returns `[1]`
(the in-neighbor list of the last-inserted node 2, because the rebuild loop
shadows the variable `node`), while the edge dict contains no edge whose
destination is 1, so the true in-neighbor list of node 1 is empty.
Symmetrically, `out_neighbors(1)` returns `[]` (node 2 has no out-edges)
although the edge (1, 2) makes `[2]` the true out-neighbor list of 1. -/
theorem claim_C2_code_eval :
    (in_neighbors gC2 1).2 = Except.ok [1] ∧
    (edgeKeys gC2).filter (fun p => decide (p.2 = 1)) = [] ∧
    (out_neighbors gC2 1).2 = Except.ok [] ∧
    (edgeKeys gC2).filter (fun p => decide (p.1 = 1)) = [(1, 2)] := by
  refine ⟨by decide, by decide, by decide, by decide⟩

unseal Rat.add Rat.sub Rat.mul Rat.inv in
/-- C3: the claim says a repeated `in_degree(id)` call served from the cache
returns the count.  On the code the second call raises: in the graph with the
single node 0, the first `in_degree(0)` returns 0 and sets `_flag_in`, and
the second call takes the cache-hit path, which returns the local variable
`in_degree_count` that was never assigned there — an `UnboundLocalError`,
not a normal return. -/
theorem claim_C3_code_eval :
    (in_degree gC3 0).2 = Except.ok 0 ∧
    (in_degree (in_degree gC3 0).1 0).2 =
      Except.error
        "UnboundLocalError: local variable referenced before assignment" := by
  constructor <;> decide

unseal Rat.add Rat.sub Rat.mul Rat.inv in
/-- C4: the claim says that after `add_edge(u, v)` an untouched node `w`
still answers its degree queries with the same values as before, for every
prior sequence of degree queries.  On the code, with nodes 0, 1, 2 and the
prior sequence consisting of the single query `in_degree(2)` (which returns
0 and warms node 2's cache), a successful `add_edge(0, 1)` leaves node 2's
`_flag_in` set, and the repeated `in_degree(2)` then raises
`UnboundLocalError` instead of returning 0 again. -/
theorem claim_C4_code_eval :
    (in_degree gC4 2).2 = Except.ok 0 ∧
    (baseAddEdge (in_degree gC4 2).1 0 1 []).2 = Except.ok () ∧
    (in_degree (baseAddEdge (in_degree gC4 2).1 0 1 []).1 2).2 =
      Except.error
        "UnboundLocalError: local variable referenced before assignment" := by
  refine ⟨by decide, by decide, by decide⟩

unseal Rat.add Rat.sub Rat.mul Rat.inv in
/-- C5: the claim says the ranks sum to 1 within 1e-9 at every iteration
boundary.  On the code, one iteration on the 3-node doctest graph returns the
dict with all three ranks 103/360 (every node received the contribution list
of the last-inserted node because of the `in_neighbors` shadowing bug), whose
sum is 103/120, at distance 17/120 from 1 — more than eight orders of
magnitude beyond the 1e-9 tolerance (double rounding error cannot bridge
that gap). -/
theorem claim_C5_code_eval :
    pagerank gDoc 1 (1/1000000) (17/20) =
      Except.ok [(0, 103/360), (1, 103/360), (2, 103/360)] ∧
    rankSum [(0, 103/360), (1, 103/360), (2, 103/360)] = 103/120 ∧
    ¬ |(103 : ℚ)/120 - 1| ≤ 1/1000000000 := by
  refine ⟨by decide, by decide, by decide⟩

unseal Rat.add Rat.sub Rat.mul Rat.inv in
/-- C7: the claim (and the code's own doctest) says one iteration with
damping 0.85 on the doctest graph puts rank 0.42778 ± 0.001 on node 0.  The
code returns 103/360 ≈ 0.28611 for node 0, at distance ≈ 0.1417 from the
claimed value: the `in_neighbors` shadowing bug feeds every node the
in-neighbor list of the last-inserted node during the first (cold-cache)
iteration. -/
theorem claim_C7_code_eval :
    pagerank gDoc 1 (1/1000000) (17/20) =
      Except.ok [(0, 103/360), (1, 103/360), (2, 103/360)] ∧
    ¬ |(103 : ℚ)/360 - 42778/100000| ≤ 1/1000 := by
  refine ⟨by decide, by decide⟩

unseal Rat.add Rat.sub Rat.mul Rat.inv in
/-- C6, counterexample: calling `pagerank` on the zero-node graph reaches
`1 / num_nodes` unguarded; the embedding returns the `ZeroDivisionError`
(there is no `EmptyGraphError` anywhere in the repository), refuting the
claim that an explicit `EmptyGraphError` is raised instead. -/
theorem claim_C6_counterexample :
    pagerank pyEmpty 100 (1/1000000) (17/20) =
      Except.error "ZeroDivisionError: division by zero" := by
  decide

/-- C6, amended: for every iteration bound, tolerance and damping factor,
`pagerank` on the zero-node graph propagates the division-by-zero arithmetic
error from the `1/N` initialization; no `EmptyGraphError` guard exists. -/
theorem claim_C6_amended (numIter : Nat) (tol d : ℚ) :
    pagerank pyEmpty numIter tol d =
      Except.error "ZeroDivisionError: division by zero" := rfl

unseal Rat.add Rat.sub Rat.mul Rat.inv in
/-- C1, counterexample.  On the graph with two isolated nodes 0 and 1 (both
sinks), tolerance 1 and damping 0.85, the first iteration detects convergence
(its L1 error is 1/2 < 1, witnessed by the `prIter` conjunct on the
post-`find_sinks` state with the loop's actual arguments N = 2,
`random_factor` = 3/40), yet `pagerank` returns the dict with both ranks
1/4 — not the map current before that final iteration began, which assigned
1/2 to both nodes (the `numIter = 0` conjunct exhibits that initial map).
The sink division by N = 2 twice over is visible in the returned values,
refuting the claim. -/
theorem claim_C1_counterexample :
    pagerank g2n 100 1 (17/20) = Except.ok [(0, 1/4), (1, 1/4)] ∧
    pagerank g2n 0 1 (17/20) = Except.ok [(0, 1/2), (1, 1/2)] ∧
    (find_sinks g2n).2 = Except.ok [0, 1] ∧
    (prIter (find_sinks g2n).1 [(0, 1/2), (1, 1/2)] [0, 1] 2 (3/40) (17/20)).2 =
      Except.ok ([(0, 1/4), (1, 1/4)], [(0, 1/2), (1, 1/2)], 1/2) ∧
    ((1 : ℚ)/2 < 1) ∧
    ([(0, (1 : ℚ)/4), (1, 1/4)] ≠ [(0, (1 : ℚ)/2), (1, 1/2)]) := by
  refine ⟨by decide, by decide, by decide, by decide, by decide, by decide⟩

lemma dlookup_dictSet_self {κ β : Type} [DecidableEq κ] (l : List (κ × β))
    (k : κ) (w : β) (h : (dlookup l k).isSome) :
    dlookup (dictSet l k w) k = some w := by
  induction l with
  | nil => simp [dlookup] at h
  | cons p rest ih =>
    by_cases hp : p.1 = k
    · simp [dictSet, dlookup, hp]
    · simp only [dlookup, hp, if_false] at h
      simpa [dictSet, dlookup, hp] using ih h

lemma dlookup_dictSet_ne {κ β : Type} [DecidableEq κ] (l : List (κ × β))
    (k k2 : κ) (w : β) (h : k2 ≠ k) :
    dlookup (dictSet l k w) k2 = dlookup l k2 := by
  induction l with
  | nil => rfl
  | cons p rest ih =>
    simp only [dictSet] at ih ⊢
    by_cases hp : p.1 = k
    · have hk : ¬ (k = k2) := fun hh => h hh.symm
      have hp2 : ¬ (p.1 = k2) := by rw [hp]; exact hk
      simp [dlookup, hp, hk, hp2, ih]
    · by_cases hq : p.1 = k2
      · simp [dlookup, hp, hq, h]
      · simp [dlookup, hp, hq, ih]

/-- What `handle_sinks` does to the rank dict, entry for entry: each sink's
value is divided by `N`, every other entry is untouched. -/
lemma handle_sinks_dlookup (sinks : List Nat) :
    ∀ pv pv2 : RankMap, ∀ q : ℚ, ∀ N : Nat, sinks.Nodup →
    handle_sinks pv sinks N = Except.ok (pv2, q) →
    ∀ id, dlookup pv2 id =
      if id ∈ sinks then (dlookup pv id).map (fun v => v / (N : ℚ))
      else dlookup pv id := by
  induction sinks with
  | nil =>
    intro pv pv2 q N _ h id
    simp only [handle_sinks, Except.ok.injEq, Prod.mk.injEq] at h
    simp [← h.1]
  | cons s rest ih =>
    intro pv pv2 q N hnd h id
    rw [handle_sinks] at h
    by_cases hN : N = 0
    · simp [hN] at h
    · rw [if_neg hN] at h
      cases hl : dlookup pv s with
      | none =>
        simp only [hl] at h
        exact Except.noConfusion h
      | some v =>
        simp only [hl] at h
        cases hrec : handle_sinks (dictSet pv s (v / (N : ℚ))) rest N with
        | error e =>
          simp only [hrec] at h
          exact Except.noConfusion h
        | ok p =>
          obtain ⟨pvr, acc⟩ := p
          simp only [hrec] at h
          simp only [Except.ok.injEq, Prod.mk.injEq] at h
          obtain ⟨hpv2, -⟩ := h
          subst hpv2
          have hrest := ih (dictSet pv s (v / (N : ℚ))) pvr acc N
            (List.Nodup.of_cons hnd) hrec id
          by_cases hid : id = s
          · subst hid
            have hnotin : id ∉ rest := by
              intro hin
              exact (List.nodup_cons.mp hnd).1 hin
            rw [hrest, if_neg hnotin,
              dlookup_dictSet_self pv id (v / (N : ℚ)) (by simp [hl])]
            simp [hl]
          · rw [hrest, dlookup_dictSet_ne pv s id (v / (N : ℚ)) hid]
            by_cases hmem : id ∈ rest
            · simp [hmem, hid]
            · simp [hmem, hid]

/-- If one pagerank iteration succeeds, the first component of its result is
exactly the dict produced by `handle_sinks` on the incoming dict. -/
lemma prIter_ok_handle (g g1 : PyGraph) (pv pv1 new : RankMap)
    (sinks : List Nat) (N : Nat) (rf d err : ℚ)
    (h : prIter g pv sinks N rf d = (g1, Except.ok (pv1, new, err))) :
    ∃ q, handle_sinks pv sinks N = Except.ok (pv1, q) := by
  unfold prIter at h
  cases hhs : handle_sinks pv sinks N with
  | error e => rw [hhs] at h; simp at h
  | ok p =>
    obtain ⟨pvA, q⟩ := p
    rw [hhs] at h
    refine ⟨q, ?_⟩
    simp only at h
    cases hit : iterNodes g pvA d (nodes_id g)
        ((nodes_id g).map fun id => (id, rf + q * d)) with
    | mk g2 r =>
      rw [hit] at h
      cases r with
      | error e => simp at h
      | ok new2 =>
        simp only at h
        cases hl1 : l1err pvA new2 with
        | error e => rw [hl1] at h; simp at h
        | ok errv =>
          rw [hl1] at h
          simp only [Prod.mk.injEq, Except.ok.injEq] at h
          rw [h.2.1]

/-- C1, amended.  Whenever one iteration of the pagerank loop computes an L1
error below the tolerance, the loop stops and returns the sink-mutated
current dict: entry for entry, the returned mapping agrees with the rank map
current before that final iteration began at every non-sink node, while every
sink node's entry is its pre-iteration value divided by N — the in-place
division performed during sink-mass summation is visible in the returned
rank values. -/
theorem claim_C1_amended (g g1 : PyGraph) (pv pv1 new : RankMap)
    (sinks : List Nat) (N : Nat) (rf tol d err : ℚ) (fuel : Nat)
    (hnd : sinks.Nodup)
    (hstep : prIter g pv sinks N rf d = (g1, Except.ok (pv1, new, err)))
    (htol : err < tol) :
    (prLoop sinks N rf tol d g pv (fuel + 1)).2 = Except.ok pv1 ∧
    ∀ id, dlookup pv1 id =
      if id ∈ sinks then (dlookup pv id).map (fun v => v / (N : ℚ))
      else dlookup pv id := by
  constructor
  · rw [prLoop, hstep]
    simp [htol]
  · obtain ⟨q, hq⟩ := prIter_ok_handle g g1 pv pv1 new sinks N rf d err hstep
    exact handle_sinks_dlookup sinks pv pv1 q N hnd hq

unseal Rat.add Rat.sub Rat.mul Rat.inv in
/-- Witness for C1 amended: the concrete two-sink run of the counterexample,
with the loop arguments `pagerank` actually passes (N = 2, rf = 3/40,
tol = 1, d = 17/20, 100 iterations). -/
theorem claim_C1_amended_witness :
    (prLoop [0, 1] 2 (3/40) 1 (17/20) (find_sinks g2n).1
        [(0, 1/2), (1, 1/2)] (99 + 1)).2 = Except.ok [(0, 1/4), (1, 1/4)] ∧
    ∀ id, dlookup [(0, (1 : ℚ)/4), (1, 1/4)] id =
      if id ∈ [0, 1] then
        (dlookup [(0, (1 : ℚ)/2), (1, 1/2)] id).map (fun v => v / ((2 : Nat) : ℚ))
      else dlookup [(0, (1 : ℚ)/2), (1, 1/2)] id :=
  claim_C1_amended (find_sinks g2n).1
    (prIter (find_sinks g2n).1 [(0, 1/2), (1, 1/2)] [0, 1] 2 (3/40) (17/20)).1
    [(0, 1/2), (1, 1/2)] [(0, 1/4), (1, 1/4)] [(0, 1/2), (1, 1/2)]
    [0, 1] 2 (3/40) 1 (17/20) (1/2) 99
    (by decide) (by decide) (by decide)

lemma dlookup_isSome_iff {κ β : Type} [DecidableEq κ] (l : List (κ × β))
    (k : κ) : (dlookup l k).isSome ↔ k ∈ l.map Prod.fst := by
  induction l with
  | nil => simp [dlookup]
  | cons p rest ih =>
    by_cases hp : p.1 = k
    · simp [dlookup, hp]
    · have hk : ¬ (k = p.1) := fun hh => hp hh.symm
      simp [dlookup, hp, ih, hk]

lemma map_fst_condUpd {β : Type} (l : List (Nat × β)) (id : Nat) (f : β → β) :
    (l.map (fun p => if p.1 = id then (p.1, f p.2) else p)).map Prod.fst =
      l.map Prod.fst := by
  induction l with
  | nil => rfl
  | cons p rest ih => by_cases hp : p.1 = id <;> simp [hp, ih]

lemma nodeKeys_updNode (g : PyGraph) (id : Nat) (f : PyNode → PyNode) :
    nodeKeys (updNode g id f) = nodeKeys g := by
  simpa [nodeKeys, updNode] using map_fst_condUpd g.nodes id f

/-- `out_degree` returns normally on every present identifier and never
changes the key set of the node dict. -/
lemma out_degree_ok (g : PyGraph) (id : Nat) (h : id ∈ nodeKeys g) :
    ∃ g2 v, out_degree g id = (g2, Except.ok v) ∧ nodeKeys g2 = nodeKeys g := by
  have hs : (dlookup g.nodes id).isSome := by
    rw [dlookup_isSome_iff]; exact h
  cases hl : dlookup g.nodes id with
  | none => rw [hl] at hs; simp at hs
  | some n =>
    unfold out_degree
    rw [hl]
    by_cases hf : n.flagOut = true
    · exact ⟨g, n.outDeg, by simp [hf], rfl⟩
    · have hk := nodeKeys_updNode g id (fun m => { m with flagOut := true, outDeg := ((edgeKeys g).filter (fun p => decide (p.1 = id))).length })
      exact ⟨_, ((edgeKeys g).filter (fun p => decide (p.1 = id))).length,
        by simp [hf], hk⟩

lemma findSinksAux_ok (ids : List Nat) :
    ∀ g : PyGraph, (∀ id ∈ ids, id ∈ nodeKeys g) →
    ∃ g2 s, findSinksAux g ids = (g2, Except.ok s) := by
  induction ids with
  | nil => intro g _; exact ⟨g, [], rfl⟩
  | cons id rest ih =>
    intro g hmem
    obtain ⟨g1, v, hod, hkeys⟩ := out_degree_ok g id (hmem id (by simp))
    obtain ⟨g2, s, hrec⟩ := ih g1
      (fun x hx => by rw [hkeys]; exact hmem x (List.mem_cons_of_mem _ hx))
    refine ⟨g2, if v = 0 then id :: s else s, ?_⟩
    simp [findSinksAux, hod, hrec]

lemma map_fst_mkpair (l : List Nat) (c : ℚ) :
    (l.map (fun id => (id, c))).map Prod.fst = l := by
  induction l with
  | nil => rfl
  | cons x xs ih => simp [ih]

/-- C10: with `num_iterations = 0` the `range` loop body never runs, so
`pagerank` returns the freshly initialized dict: one entry per node id (in
sorted id order) and every entry equal to `1/N`.  The hypotheses scope the
statement to genuine graph states: a nonempty node dict (an empty one raises
`ZeroDivisionError`) with unique keys (Python dicts cannot hold duplicate
keys). -/
theorem claim_C10 (g : PyGraph) (h0 : g.nodes ≠ [])
    (hnd : (nodeKeys g).Nodup) (tol d : ℚ) :
    ∃ m, pagerank g 0 tol d = Except.ok m ∧
      m.map Prod.fst = nodes_id g ∧
      ∀ p ∈ m, p.2 = 1 / (g.nodes.length : ℚ) := by
  have hlen : ¬ g.nodes.length = 0 := by simpa using h0
  have hmem : ∀ id ∈ nodes_id g, id ∈ nodeKeys g := by
    intro id hid
    exact (List.mem_insertionSort (fun x y => x ≤ y)).mp hid
  obtain ⟨g2, sinks, hfs⟩ := findSinksAux_ok (nodes_id g) g hmem
  refine ⟨(nodes_id g).map (fun id => (id, 1 / (g.nodes.length : ℚ))),
    ?_, ?_, ?_⟩
  · show pagerank g 0 tol d = _
    unfold pagerank
    rw [if_neg hlen]
    simp only [find_sinks, hfs]
    rfl
  · exact map_fst_mkpair _ _
  · intro p hp
    simp only [List.mem_map] at hp
    obtain ⟨id, -, hpe⟩ := hp
    rw [← hpe]

/-- Witness for C10 at the concrete doctest graph. -/
theorem claim_C10_witness :
    ∃ m, pagerank gDoc 0 (1/1000000) (17/20) = Except.ok m ∧
      m.map Prod.fst = nodes_id gDoc ∧
      ∀ p ∈ m, p.2 = 1 / (gDoc.nodes.length : ℚ) :=
  claim_C10 gDoc (by decide) (by decide) (1/1000000) (17/20)

lemma dlookup_append_some {κ β : Type} [DecidableEq κ] (l1 l2 : List (κ × β))
    (k : κ) (v : β) (h : dlookup l1 k = some v) :
    dlookup (l1 ++ l2) k = some v := by
  induction l1 with
  | nil => simp [dlookup] at h
  | cons p rest ih =>
    by_cases hp : p.1 = k
    · simp only [dlookup, hp, if_true] at h
      simpa [dlookup, hp] using h
    · simp only [dlookup, hp, if_false] at h
      simpa [dlookup, hp] using ih h

lemma dlookup_append_none {κ β : Type} [DecidableEq κ] (l1 l2 : List (κ × β))
    (k : κ) (h : dlookup l1 k = none) :
    dlookup (l1 ++ l2) k = dlookup l2 k := by
  induction l1 with
  | nil => rfl
  | cons p rest ih =>
    by_cases hp : p.1 = k
    · simp [dlookup, hp] at h
    · simp only [dlookup, hp, if_false] at h
      simpa [dlookup, hp] using ih h

lemma dlookup_eq_none_iff {κ β : Type} [DecidableEq κ] (l : List (κ × β))
    (k : κ) : dlookup l k = none ↔ k ∉ l.map Prod.fst := by
  rw [← Option.not_isSome_iff_eq_none]
  exact not_congr (dlookup_isSome_iff l k)

lemma edlookup_isSome_iff (g : PyGraph) (p : Nat × Nat) :
    (dlookup g.edges p).isSome ↔ p ∈ edgeKeys g :=
  dlookup_isSome_iff _ _

lemma ndlookup_isSome_iff (g : PyGraph) (k : Nat) :
    (dlookup g.nodes k).isSome ↔ k ∈ nodeKeys g :=
  dlookup_isSome_iff _ _

/-- The invariant an `UndirectedGraph` instance keeps on its edge dict: no
duplicate ordered-pair keys, no self pairs, full mirror symmetry with
identical attribute bags, and as many edges out of each id as into it. -/
structure EKInv (es : List ((Nat × Nat) × PyEdge)) : Prop where
  nodupE : (es.map Prod.fst).Nodup
  noSelf : ∀ a : Nat, (a, a) ∉ es.map Prod.fst
  symmA : ∀ a b : Nat,
    (dlookup es (a, b)).map PyEdge.attrs = (dlookup es (b, a)).map PyEdge.attrs
  balance : ∀ a : Nat,
    ((es.map Prod.fst).filter (fun p => decide (p.1 = a))).length =
    ((es.map Prod.fst).filter (fun p => decide (p.2 = a))).length

def EInv (g : PyGraph) : Prop := EKInv g.edges

/-- The states an `UndirectedGraph` can reach from `UndirectedGraph()`
through its public mutators.  A failing call is covered too: the proofs below
show every failing `add_node`/`add_edge` leaves the state equal to `g`, and
the constructors include the post-state of every call, successful or not. -/
inductive UReach : PyGraph → Prop where
  | empty : UReach pyEmpty
  | addNode (g : PyGraph) (id : Nat) (attrs : Attrs) :
      UReach g → UReach (add_node g id attrs).1
  | addEdge (g : PyGraph) (a b : Nat) (attrs : Attrs) :
      UReach g → UReach (uAddEdge g a b attrs).1

lemma baseAddEdge_ok_iff (g : PyGraph) (a b : Nat) (attrs : Attrs) :
    (baseAddEdge g a b attrs).2 = Except.ok () ↔
      ((a, b) ∉ edgeKeys g ∧ a ∈ nodeKeys g ∧ b ∈ nodeKeys g) := by
  unfold baseAddEdge
  by_cases h1 : (dlookup g.edges (a, b)).isSome
  · rw [if_pos h1]
    have hmem := (edlookup_isSome_iff g (a, b)).mp h1
    constructor
    · intro hh; exact absurd hh (by simp)
    · intro hh; exact absurd hmem hh.1
  · rw [if_neg h1]
    have hnm : (a, b) ∉ edgeKeys g :=
      fun hm => h1 ((edlookup_isSome_iff g (a, b)).mpr hm)
    by_cases h2 : (dlookup g.nodes a).isSome ∧ (dlookup g.nodes b).isSome
    · rw [if_neg (not_not_intro h2)]
      simp only [true_iff]
      exact ⟨hnm, (ndlookup_isSome_iff g a).mp h2.1,
        (ndlookup_isSome_iff g b).mp h2.2⟩
    · rw [if_pos h2]
      constructor
      · intro hh; exact absurd hh (by simp)
      · rintro ⟨-, ha, hb⟩
        exact absurd ⟨(ndlookup_isSome_iff g a).mpr ha,
          (ndlookup_isSome_iff g b).mpr hb⟩ h2

lemma baseAddEdge_fail_eq (g : PyGraph) (a b : Nat) (attrs : Attrs)
    (h : (baseAddEdge g a b attrs).2 ≠ Except.ok ()) :
    (baseAddEdge g a b attrs).1 = g := by
  unfold baseAddEdge at h ⊢
  by_cases h1 : (dlookup g.edges (a, b)).isSome
  · rw [if_pos h1]
  · rw [if_neg h1]
    by_cases h2 : (dlookup g.nodes a).isSome ∧ (dlookup g.nodes b).isSome
    · exfalso
      apply h
      rw [if_neg h1, if_neg (not_not_intro h2)]
    · rw [if_pos h2]

lemma baseAddEdge_ok_spec (g : PyGraph) (a b : Nat) (attrs : Attrs)
    (h : (baseAddEdge g a b attrs).2 = Except.ok ()) :
    (baseAddEdge g a b attrs).1.edges =
      g.edges ++ [((a, b), PyEdge.mk a b attrs)] ∧
    nodeKeys (baseAddEdge g a b attrs).1 = nodeKeys g := by
  unfold baseAddEdge at h ⊢
  by_cases h1 : (dlookup g.edges (a, b)).isSome
  · rw [if_pos h1] at h ⊢
    exact absurd h (by simp)
  · rw [if_neg h1] at h ⊢
    by_cases h2 : (dlookup g.nodes a).isSome ∧ (dlookup g.nodes b).isSome
    · rw [if_neg (not_not_intro h2)] at h ⊢
      exact ⟨rfl, by rw [nodeKeys_updNode, nodeKeys_updNode]; rfl⟩
    · rw [if_pos h2] at h ⊢
      exact absurd h (by simp)

/-- Appending the mirror pair `(a,b)`, `(b,a)` (same attributes, `a ≠ b`,
neither pair already present) preserves the undirected edge-dict invariant. -/
lemma ekinv_extend (es : List ((Nat × Nat) × PyEdge)) (hi : EKInv es)
    (a b : Nat) (attrs : Attrs) (hab : a ≠ b)
    (hnm : (a, b) ∉ es.map Prod.fst) (hnm2 : (b, a) ∉ es.map Prod.fst) :
    EKInv (es ++ [((a, b), PyEdge.mk a b attrs),
                  ((b, a), PyEdge.mk b a attrs)]) := by
  constructor
  · rw [List.map_append, List.nodup_append]
    refine ⟨hi.nodupE, by simp [hab], ?_⟩
    intro x hx hmem
    simp only [List.map_cons, List.map_nil, List.mem_cons,
      List.not_mem_nil, or_false] at hmem
    rcases hmem with h | h
    · rw [h] at hx; exact hnm hx
    · rw [h] at hx; exact hnm2 hx
  · intro c
    rw [List.map_append]
    intro hmem
    rcases List.mem_append.mp hmem with hin | hin
    · exact hi.noSelf c hin
    · simp only [List.map_cons, List.map_nil, List.mem_cons,
        List.not_mem_nil, or_false, Prod.mk.injEq] at hin
      rcases hin with ⟨h1, h2⟩ | ⟨h1, h2⟩
      · exact hab (h1.symm.trans h2)
      · exact hab (h2.symm.trans h1)
  · intro x y
    cases hx : dlookup es (x, y) with
    | some v =>
      have hsym := hi.symmA x y
      rw [hx] at hsym
      cases hy : dlookup es (y, x) with
      | none => rw [hy] at hsym; simp at hsym
      | some w =>
        rw [hy] at hsym
        rw [dlookup_append_some _ _ _ _ hx, dlookup_append_some _ _ _ _ hy]
        exact hsym
    | none =>
      have hsym := hi.symmA x y
      rw [hx] at hsym
      cases hy : dlookup es (y, x) with
      | some w => rw [hy] at hsym; simp at hsym
      | none =>
        rw [dlookup_append_none _ _ _ hx, dlookup_append_none _ _ _ hy]
        by_cases h1 : (x, y) = (a, b)
        · rw [Prod.mk.injEq] at h1
          obtain ⟨rfl, rfl⟩ := h1
          simp [dlookup, hab, Ne.symm hab]
        · by_cases h2 : (x, y) = (b, a)
          · rw [Prod.mk.injEq] at h2
            obtain ⟨rfl, rfl⟩ := h2
            simp [dlookup, hab, Ne.symm hab]
          · have h3 : ¬ ((a, b) = (x, y)) := fun hh => h1 hh.symm
            have h4 : ¬ ((b, a) = (x, y)) := fun hh => h2 hh.symm
            have h5 : ¬ ((a, b) = (y, x)) := by
              intro hh
              rw [Prod.mk.injEq] at hh
              exact h2 (by rw [Prod.mk.injEq]; exact ⟨hh.2.symm, hh.1.symm⟩)
            have h6 : ¬ ((b, a) = (y, x)) := by
              intro hh
              rw [Prod.mk.injEq] at hh
              exact h1 (by rw [Prod.mk.injEq]; exact ⟨hh.2.symm, hh.1.symm⟩)
            simp [dlookup, h3, h4, h5, h6]
  · intro c
    rw [List.map_append, List.filter_append, List.filter_append,
      List.length_append, List.length_append, hi.balance c]
    congr 1
    by_cases hac : a = c <;> by_cases hbc : b = c <;> simp [hac, hbc]

lemma ekinv_of_edges_eq (g g2 : PyGraph) (h : g2.edges = g.edges)
    (hi : EInv g) : EInv g2 := by
  unfold EInv at hi ⊢
  rw [h]
  exact hi

lemma map_attrs_isSome (o1 o2 : Option PyEdge)
    (h : o1.map PyEdge.attrs = o2.map PyEdge.attrs) : o1.isSome = o2.isSome := by
  cases o1 <;> cases o2 <;> simp_all

/-- Under the undirected invariant, presence of `(a,b)` and of `(b,a)` in the
edge dict are equivalent. -/
lemma einv_symm_mem (g : PyGraph) (hi : EInv g) (a b : Nat) :
    (a, b) ∈ edgeKeys g ↔ (b, a) ∈ edgeKeys g := by
  rw [← edlookup_isSome_iff, ← edlookup_isSome_iff,
    map_attrs_isSome _ _ (hi.symmA a b)]

/-- Every state an `UndirectedGraph` can reach satisfies the edge-dict
invariant: unique keys, no self pairs, mirror symmetry with identical
attributes, and source/destination incidence balance. -/
theorem ureach_einv (g : PyGraph) (h : UReach g) : EInv g := by
  induction h with
  | empty =>
    exact ⟨List.nodup_nil, by intro a; simp [pyEmpty], fun a b => rfl, fun a => rfl⟩
  | addNode g0 id attrs hr ih =>
    have he : (add_node g0 id attrs).1.edges = g0.edges := by
      unfold add_node; split_ifs <;> rfl
    exact ekinv_of_edges_eq g0 _ he ih
  | addEdge g0 a b attrs hr ih =>
    by_cases hab : a = b
    · have hres : (uAddEdge g0 a b attrs).1 = g0 := by
        unfold uAddEdge; rw [if_pos hab]
      rw [hres]; exact ih
    · by_cases hok : (baseAddEdge g0 a b attrs).2 = Except.ok ()
      · obtain ⟨hnm, ha, hb⟩ := (baseAddEdge_ok_iff g0 a b attrs).mp hok
        obtain ⟨he1, hk1⟩ := baseAddEdge_ok_spec g0 a b attrs hok
        have hu : (uAddEdge g0 a b attrs).1 =
            (baseAddEdge (baseAddEdge g0 a b attrs).1 b a attrs).1 := by
          unfold uAddEdge
          rw [if_neg hab]
          cases hbase : baseAddEdge g0 a b attrs with
          | mk g1 r =>
            cases r with
            | error e => rw [hbase] at hok; exact absurd hok (by simp)
            | ok u => rfl
        have hok2 : (baseAddEdge (baseAddEdge g0 a b attrs).1 b a attrs).2 =
            Except.ok () := by
          rw [baseAddEdge_ok_iff]
          refine ⟨?_, ?_, ?_⟩
          · intro hmem
            simp only [edgeKeys, he1, List.map_append, List.map_cons,
              List.map_nil] at hmem
            rcases List.mem_append.mp hmem with hin | hin
            · exact hnm ((einv_symm_mem g0 ih b a).mp hin)
            · rw [List.mem_singleton, Prod.mk.injEq] at hin
              exact hab hin.2
          · rw [hk1]; exact hb
          · rw [hk1]; exact ha
        obtain ⟨he2, -⟩ := baseAddEdge_ok_spec _ b a attrs hok2
        rw [hu]
        unfold EInv
        rw [he2, he1, List.append_assoc]
        exact ekinv_extend g0.edges ih a b attrs hab hnm
          (fun hh => hnm ((einv_symm_mem g0 ih b a).mp hh))
      · have hf1 := baseAddEdge_fail_eq g0 a b attrs hok
        have hres : (uAddEdge g0 a b attrs).1 = g0 := by
          unfold uAddEdge
          rw [if_neg hab]
          cases hbase : baseAddEdge g0 a b attrs with
          | mk g1 r =>
            cases r with
            | ok u =>
              rw [hbase] at hok
              exact absurd rfl hok
            | error e =>
              have hg : g1 = g0 := by rw [← hf1, hbase]
              exact hg
        rw [hres]; exact ih

/-- The distinct node identifiers adjacent to `a` (an edge in either
direction), read off the edge dict. -/
def adjacentIds (g : PyGraph) (a : Nat) : List Nat :=
  ((edgeKeys g).map Prod.snd).dedup.filter
    (fun b => decide ((a, b) ∈ edgeKeys g) || decide ((b, a) ∈ edgeKeys g))

lemma count_or_split (l : List (Nat × Nat)) (a : Nat) (h : (a, a) ∉ l) :
    (l.filter (fun p => decide (p.1 = a) || decide (p.2 = a))).length =
    (l.filter (fun p => decide (p.1 = a))).length +
    (l.filter (fun p => decide (p.2 = a))).length := by
  induction l with
  | nil => rfl
  | cons p rest ih =>
    have hpr : (a, a) ∉ rest := fun hh => h (List.mem_cons_of_mem _ hh)
    have ihr := ih hpr
    by_cases h1 : p.1 = a
    · have h2 : ¬ p.2 = a := by
        intro h2
        apply h
        have hp : p = (a, a) := Prod.ext h1 h2
        rw [← hp]
        exact List.mem_cons_self _ _
      simp [List.filter_cons, h1, h2, ihr]
      omega
    · by_cases h2 : p.2 = a
      · simp [List.filter_cons, h1, h2, ihr]
        omega
      · simp [List.filter_cons, h1, h2, ihr]

lemma src_filter_map_mem (K : List (Nat × Nat)) (a b : Nat) :
    b ∈ (K.filter (fun p => decide (p.1 = a))).map Prod.snd ↔ (a, b) ∈ K := by
  constructor
  · intro hb
    obtain ⟨p, hp, hpb⟩ := List.mem_map.mp hb
    have hf := List.mem_filter.mp hp
    have h1 : p.1 = a := by simpa using hf.2
    have hp2 : p = (a, b) := Prod.ext h1 hpb
    rw [← hp2]
    exact hf.1
  · intro hk
    exact List.mem_map.mpr ⟨(a, b), List.mem_filter.mpr ⟨hk, by simp⟩, rfl⟩

lemma src_filter_map_nodup (K : List (Nat × Nat)) (a : Nat) (h : K.Nodup) :
    ((K.filter (fun p => decide (p.1 = a))).map Prod.snd).Nodup := by
  apply List.Nodup.map_on
  · intro x hx y hy hxy
    have hfx := List.mem_filter.mp hx
    have hfy := List.mem_filter.mp hy
    have h1 : x.1 = a := by simpa using hfx.2
    have h2 : y.1 = a := by simpa using hfy.2
    exact Prod.ext (h1.trans h2.symm) hxy
  · exact List.Nodup.filter _ h

lemma adjacentIds_mem (g : PyGraph) (hi : EInv g) (a b : Nat) :
    b ∈ adjacentIds g a ↔ (a, b) ∈ edgeKeys g := by
  unfold adjacentIds
  rw [List.mem_filter]
  constructor
  · rintro ⟨-, hcond⟩
    simp only [Bool.or_eq_true, decide_eq_true_eq] at hcond
    rcases hcond with hmem | hmem
    · exact hmem
    · exact (einv_symm_mem g hi b a).mp hmem
  · intro hk
    refine ⟨?_, by simp [hk]⟩
    rw [List.mem_dedup]
    exact List.mem_map.mpr ⟨(a, b), hk, rfl⟩

lemma length_eq_of_nodup_mem_iff (l1 l2 : List Nat) (h1 : l1.Nodup)
    (h2 : l2.Nodup) (h : ∀ x, x ∈ l1 ↔ x ∈ l2) : l1.length = l2.length :=
  ((List.perm_ext_iff_of_nodup h1 h2).mpr h).length_eq

/-- C8: in every reachable state of an `UndirectedGraph`, (i) edge `(a,b)` is
stored exactly when edge `(b,a)` is, with identical attribute bags, (ii)
`add_edge(a, a)` always fails with the self-loop `GraphError` and returns the
state unchanged, and (iii) `degree(a)` returns the number of distinct nodes
adjacent to `a`, each undirected adjacency counted once. -/
theorem claim_C8 (g : PyGraph) (h : UReach g) :
    (∀ a b : Nat, edgeAttrs g a b = edgeAttrs g b a) ∧
    (∀ (a : Nat) (attrs : Attrs), uAddEdge g a a attrs =
      (g, Except.error
        "GraphError: cannot add a self-loop in an undirected graph")) ∧
    (∀ a : Nat, a ∈ nodeKeys g →
      degree g a = Except.ok (adjacentIds g a).length) := by
  have hi := ureach_einv g h
  refine ⟨?_, ?_, ?_⟩
  · intro a b
    exact hi.symmA a b
  · intro a attrs
    unfold uAddEdge
    rw [if_pos rfl]
  · intro a hmem
    unfold degree
    rw [if_pos ((ndlookup_isSome_iff g a).mpr hmem)]
    congr 1
    rw [count_or_split (edgeKeys g) a (hi.noSelf a)]
    have hbal : (List.filter (fun p => decide (p.2 = a)) (edgeKeys g)).length =
        (List.filter (fun p => decide (p.1 = a)) (edgeKeys g)).length :=
      (hi.balance a).symm
    rw [hbal, ← Nat.two_mul, Nat.mul_div_cancel_left _ (by norm_num : 0 < 2),
      ← List.length_map _ Prod.snd]
    exact length_eq_of_nodup_mem_iff _ _
      (src_filter_map_nodup _ a hi.nodupE)
      (List.Nodup.filter _ (List.nodup_dedup _))
      (fun b => (src_filter_map_mem _ a b).trans (adjacentIds_mem g hi a b).symm)

/-- The reachable 2-node undirected graph with the single undirected edge
1 – 2 (stored as the mirror pair (1,2), (2,1) with identical attributes). -/
def gW8 : PyGraph :=
  (uAddEdge (add_node (add_node pyEmpty 1 []).1 2 []).1 1 2 [("c", "3")]).1

/-- Witness for C8: the concrete reachable graph `gW8`, with the degree
conclusion evaluated (node 1 has exactly one distinct neighbor). -/
theorem claim_C8_witness :
    ((∀ a b : Nat, edgeAttrs gW8 a b = edgeAttrs gW8 b a) ∧
    (∀ (a : Nat) (attrs : Attrs), uAddEdge gW8 a a attrs =
      (gW8, Except.error
        "GraphError: cannot add a self-loop in an undirected graph")) ∧
    (∀ a : Nat, a ∈ nodeKeys gW8 →
      degree gW8 a = Except.ok (adjacentIds gW8 a).length)) ∧
    degree gW8 1 = Except.ok 1 := by
  have h1 : UReach (add_node pyEmpty 1 []).1 :=
    UReach.addNode pyEmpty 1 [] UReach.empty
  have h2 : UReach (add_node (add_node pyEmpty 1 []).1 2 []).1 :=
    UReach.addNode _ 2 [] h1
  have hr : UReach gW8 := UReach.addEdge _ 1 2 [("c", "3")] h2
  have hmain := claim_C8 gW8 hr
  refine ⟨hmain, ?_⟩
  rw [hmain.2.2 1 (by decide)]
  decide

/-- C9: failing add operations.  (i) `add_node` succeeds exactly when the id
is fresh, and a failing call returns the state unchanged; (ii) the base
(directed) `add_edge` succeeds exactly when the ordered pair is fresh and
both endpoints exist, and a failing call returns the state unchanged (no
edge stored, no cache flag touched); (iii) in every reachable state of an
`UndirectedGraph`, a failing undirected `add_edge` also returns the state
unchanged (the second mirror insertion can never be the failing one). -/
theorem claim_C9 :
    (∀ (g : PyGraph) (id : Nat) (attrs : Attrs),
      ((add_node g id attrs).2 = Except.ok () ↔ id ∉ nodeKeys g) ∧
      ((add_node g id attrs).2 ≠ Except.ok () → (add_node g id attrs).1 = g)) ∧
    (∀ (g : PyGraph) (a b : Nat) (attrs : Attrs),
      ((baseAddEdge g a b attrs).2 = Except.ok () ↔
        ((a, b) ∉ edgeKeys g ∧ a ∈ nodeKeys g ∧ b ∈ nodeKeys g)) ∧
      ((baseAddEdge g a b attrs).2 ≠ Except.ok () →
        (baseAddEdge g a b attrs).1 = g)) ∧
    (∀ (g : PyGraph) (a b : Nat) (attrs : Attrs), UReach g →
      (uAddEdge g a b attrs).2 ≠ Except.ok () →
      (uAddEdge g a b attrs).1 = g) := by
  refine ⟨?_, ?_, ?_⟩
  · intro g id attrs
    constructor
    · unfold add_node
      by_cases h1 : (dlookup g.nodes id).isSome
      · rw [if_pos h1]
        constructor
        · intro hh; exact absurd hh (by simp)
        · intro hh; exact absurd ((ndlookup_isSome_iff g id).mp h1) hh
      · rw [if_neg h1]
        constructor
        · intro _ hm; exact h1 ((ndlookup_isSome_iff g id).mpr hm)
        · intro _; rfl
    · intro hfail
      unfold add_node at hfail ⊢
      by_cases h1 : (dlookup g.nodes id).isSome
      · rw [if_pos h1]
      · exfalso
        apply hfail
        rw [if_neg h1]
  · intro g a b attrs
    exact ⟨baseAddEdge_ok_iff g a b attrs, baseAddEdge_fail_eq g a b attrs⟩
  · intro g a b attrs hr hfail
    have hi := ureach_einv g hr
    by_cases hab : a = b
    · unfold uAddEdge
      rw [if_pos hab]
    · by_cases hok : (baseAddEdge g a b attrs).2 = Except.ok ()
      · exfalso
        apply hfail
        obtain ⟨hnm, ha, hb⟩ := (baseAddEdge_ok_iff g a b attrs).mp hok
        obtain ⟨he1, hk1⟩ := baseAddEdge_ok_spec g a b attrs hok
        have hok2 : (baseAddEdge (baseAddEdge g a b attrs).1 b a attrs).2 =
            Except.ok () := by
          rw [baseAddEdge_ok_iff]
          refine ⟨?_, by rw [hk1]; exact hb, by rw [hk1]; exact ha⟩
          intro hmem
          simp only [edgeKeys, he1, List.map_append, List.map_cons,
            List.map_nil] at hmem
          rcases List.mem_append.mp hmem with hin | hin
          · exact hnm ((einv_symm_mem g hi b a).mp hin)
          · rw [List.mem_singleton, Prod.mk.injEq] at hin
            exact hab hin.2
        unfold uAddEdge
        rw [if_neg hab]
        cases hbase : baseAddEdge g a b attrs with
        | mk g1 r =>
          cases r with
          | error e => rw [hbase] at hok; exact absurd hok (by simp)
          | ok u =>
            rw [hbase] at hok2
            exact hok2
      · have hf1 := baseAddEdge_fail_eq g a b attrs hok
        unfold uAddEdge
        rw [if_neg hab]
        cases hbase : baseAddEdge g a b attrs with
        | mk g1 r =>
          cases r with
          | ok u => rw [hbase] at hok; exact absurd rfl hok
          | error e =>
            have hg : g1 = g := by rw [← hf1, hbase]
            exact hg

/-- Witness for C9: a duplicate `add_node`, a duplicate directed `add_edge`,
and a duplicate undirected `add_edge` on the reachable graph `gW8`, each
leaving the state unchanged. -/
theorem claim_C9_witness :
    (add_node gC3 0 []).1 = gC3 ∧
    (baseAddEdge gC2 1 2 []).1 = gC2 ∧
    (uAddEdge gW8 1 2 []).1 = gW8 := by
  have h1 : UReach (add_node pyEmpty 1 []).1 :=
    UReach.addNode pyEmpty 1 [] UReach.empty
  have h2 : UReach (add_node (add_node pyEmpty 1 []).1 2 []).1 :=
    UReach.addNode _ 2 [] h1
  have hr : UReach gW8 := UReach.addEdge _ 1 2 [("c", "3")] h2
  refine ⟨?_, ?_, ?_⟩
  · exact (claim_C9.1 gC3 0 []).2 (by decide)
  · exact (claim_C9.2.1 gC2 1 2 []).2 (by decide)
  · exact claim_C9.2.2 gW8 1 2 [] hr (by decide)
